import Mathlib

/-!
Verification of the concurrent pipeline toolkit (`pkg/idioms/channels.go` and
the concurrency file of the same package).

Modelling conventions.  Go channels carrying a finite stream of values are
modelled as `List Int`.  Each producing goroutine checks the cancellation
token (`ctx.Done()`) inside a `select` at well-defined program points; we
model the token as an oracle `cancelled : Nat → Bool` indexed by a step
counter, so that `cancelled t = true` means the `t`-th `select` executed by
that goroutine observes the context as cancelled and takes the `Done` branch.
"The token never fires" is the hypothesis `∀ t, cancelled t = false`.
-/

/-- The all-false cancellation oracle: the token never fires. -/
def noCancel : Nat → Bool := fun _ => false

/-- Loop body shared by the one-to-one pipeline stages.  From the source:
`for item := range input { select { case <-ctx.Done(): return; case output <- f(item): } }`
with `defer close(output)`.  At each element the goroutine either observes
cancellation and returns (emitting nothing further) or emits `f item`. -/
def stageRun (f : Int → Int) (cancelled : Nat → Bool) : List Int → Nat → List Int
  | [], _ => []
  | x :: xs, t => if cancelled t then [] else f x :: stageRun f cancelled xs (t + 1)

/-- `SafePipeline` (channels.go): the stage whose transform is `item * 2`. -/
def SafePipeline (cancelled : Nat → Bool) (input : List Int) : List Int :=
  stageRun (fun x => x * 2) cancelled input 0

/-- `worker` (channels.go): the fan-out stage whose transform is `val * val`. -/
def fanWorker (cancelled : Nat → Bool) (input : List Int) : List Int :=
  stageRun (fun x => x * x) cancelled input 0

/-- `Generator` (channels.go): emits each of `values` in order, checking the
token in a `select` before every emission, closing on cancellation or
exhaustion. -/
def Generator (cancelled : Nat → Bool) (values : List Int) : List Int :=
  stageRun (fun x => x) cancelled values 0

theorem stageRun_noFire (f : Int → Int) (cancelled : Nat → Bool)
    (h : ∀ t, cancelled t = false) :
    ∀ (input : List Int) (t : Nat), stageRun f cancelled input t = input.map f := by
  intro input
  induction input with
  | nil => intro t; rfl
  | cons x xs ih =>
    intro t
    simp [stageRun, h t, ih (t + 1)]

/-- Claim C1: with the token never firing, a pipeline stage's output has the
same length as its input and `output[i] = f (input[i])` for every index, order
preserved; and `Generator [1,2,3,4,5]` fed through `SafePipeline` yields
`[2,4,6,8,10]` in order. -/
theorem C1_stage_maps (f : Int → Int) (cancelled : Nat → Bool)
    (h : ∀ t, cancelled t = false) (input : List Int) :
    (stageRun f cancelled input 0).length = input.length ∧
    (∀ i (hi : i < input.length),
      (stageRun f cancelled input 0).get ⟨i, by rw [stageRun_noFire f cancelled h]; simpa⟩ =
        f (input.get ⟨i, hi⟩)) ∧
    SafePipeline cancelled (Generator cancelled [1, 2, 3, 4, 5]) = [2, 4, 6, 8, 10] := by
  refine ⟨?_, ?_, ?_⟩
  · rw [stageRun_noFire f cancelled h]; simp
  · intro i hi
    simp [stageRun_noFire f cancelled h]
  · unfold SafePipeline Generator
    rw [stageRun_noFire _ cancelled h, stageRun_noFire _ cancelled h]
    decide

/-!
Fan-Out / Fan-In (`FanOutFanIn`, `worker`, `merge` in channels.go).

`FanOutFanIn` spawns `workers` copies of `worker`, all ranging over the one
shared `input` channel.  A channel receive delivers each element to exactly
one of the competing readers, each reader seeing its elements in input order;
we model the nondeterministic distribution as a list `parts` of per-worker
input slices whose concatenation is a permutation of the input.  `merge`
forwards every element of every worker's output into one shared channel that
is closed only after all forwarders exit (the `wg.Wait` barrier), so the
merged output is a permutation of the concatenation of the worker outputs.
-/

/-- The per-worker outputs of the fan-out: worker `i` runs the `worker` stage
(transform `val * val`) with its own cancellation oracle over its slice. -/
def fanOutOutputs (oracles : List (Nat → Bool)) (parts : List (List Int)) :
    List (List Int) :=
  List.zipWith fanWorker oracles parts

theorem fanOutOutputs_noFire (oracles : List (Nat → Bool)) (parts : List (List Int))
    (hlen : oracles.length = parts.length)
    (h : ∀ o ∈ oracles, ∀ t, o t = false) :
    fanOutOutputs oracles parts = parts.map (List.map (fun x => x * x)) := by
  induction parts generalizing oracles with
  | nil =>
    simp [fanOutOutputs]
  | cons p ps ih =>
    cases oracles with
    | nil => simp at hlen
    | cons o os =>
      simp only [fanOutOutputs, List.zipWith, List.map]
      rw [show fanWorker o p = List.map (fun x => x * x) p from
            stageRun_noFire _ o (h o (List.mem_cons_self o os)) p 0,
          show List.zipWith fanWorker os ps = List.map (List.map fun x => x * x) ps from
            ih os (by simpa using hlen) (fun o' ho' => h o' (List.mem_cons_of_mem o ho'))]

/-- Claim C2: with no oracle ever firing, fan-out over `N ≥ 1` workers followed
by fan-in emits exactly `input.length` values whose multiset is the multiset of
squared inputs, hence whose set of values is the set of squared inputs. -/
theorem C2_fanOutFanIn (input out : List Int) (parts : List (List Int))
    (oracles : List (Nat → Bool)) (N : Nat)
    (hN : 1 ≤ N) (hNparts : parts.length = N)
    (holen : oracles.length = parts.length)
    (hfire : ∀ o ∈ oracles, ∀ t, o t = false)
    (hdist : List.Perm parts.flatten input)
    (hmerge : List.Perm out (fanOutOutputs oracles parts).flatten) :
    out.length = input.length ∧
    (↑out : Multiset Int) = ↑(input.map fun x => x * x) ∧
    out.toFinset = (input.map fun x => x * x).toFinset := by
  have houts : (fanOutOutputs oracles parts).flatten = parts.flatten.map (fun x => x * x) := by
    rw [fanOutOutputs_noFire oracles parts holen hfire, List.map_flatten]
  have hperm : List.Perm out (input.map fun x => x * x) := by
    rw [houts] at hmerge
    exact hmerge.trans (hdist.map _)
  refine ⟨?_, ?_, ?_⟩
  · rw [hperm.length_eq, List.length_map]
  · exact Multiset.coe_eq_coe.mpr hperm
  · exact List.toFinset_eq_of_perm _ _ hperm

/-- Witness for C2: `Generate(1..5)` fanned over 3 workers as slices
`[1,4], [2,5], [3]`, merged as `[1,4,9,16,25]`; the collected set is
`{1,4,9,16,25}`. -/
theorem C2_fanOutFanIn_witness :
    ([1, 4, 9, 16, 25] : List Int).length = ([1, 2, 3, 4, 5] : List Int).length ∧
    (↑([1, 4, 9, 16, 25] : List Int) : Multiset Int) =
      ↑(([1, 2, 3, 4, 5] : List Int).map fun x => x * x) ∧
    ([1, 4, 9, 16, 25] : List Int).toFinset =
      (([1, 2, 3, 4, 5] : List Int).map fun x => x * x).toFinset :=
  C2_fanOutFanIn [1, 2, 3, 4, 5] [1, 4, 9, 16, 25] [[1, 4], [2, 5], [3]]
    (List.replicate 3 noCancel) 3 (by decide) (by decide) (by decide)
    (fun o ho t => by rw [List.eq_of_mem_replicate ho]; rfl)
    (by decide) (by decide)

/-!
Blocking shape of the toolkit's suspension points.  For each blocking
statement we give its readiness predicate: the statement can proceed exactly
when the predicate holds, and blocks (the goroutine stays suspended) while it
is false.  A "two-way wait" is one whose readiness becomes true as soon as
cancellation fires.  The emit `select`s of the stages are two-way; the
input-dequeue `range` receives of the stages, the rate limiter's `Wait` and
the worker pool's `Submit` are bare one-way statements in which the token
does not occur.
-/

/-- From `Generator` (and the emit statement of every other pipeline stage):
`select { case <-ctx.Done(): return; case ch <- v: }` can proceed iff the
context is cancelled or the receiver is ready — a two-way wait. -/
def Generator.emitReady (cancelled receiverReady : Bool) : Bool :=
  cancelled || receiverReady

/-- From the input dequeues `for item := range input` in `SafePipeline`,
`worker`, the `merge` forwarders and `Tee`: a bare channel receive.  It can
proceed iff a value is available or the input channel is closed (which
terminates the range); the token does not occur in the statement, so
readiness ignores the `cancelled` flag. -/
def rangeRecvReady (valueAvailable inputClosed cancelled : Bool) : Bool :=
  valueAvailable || inputClosed

/-- From `RateLimiter.Wait`: the statement is the bare receive `<-rl.tokens`.
It can proceed iff a token is buffered; the limiter's stop flag (closed by
`RateLimiter.Close`, its only cancellation signal) does not occur in the
statement, so readiness ignores it. -/
def RateLimiter.waitReady (tokens : Nat) (stopClosed : Bool) : Bool :=
  decide (0 < tokens)

/-- From `WorkerPool.Submit`: the statement is the bare send `p.jobs <- job`
on the buffered jobs channel (capacity 100 in `NewWorkerPool`).  It can
proceed iff the buffer has room or some worker is blocked receiving; the pool
holds no cancellation token, so readiness ignores the `cancelled` flag. -/
def WorkerPool.submitReady (queueLen : Nat) (workerWaiting cancelled : Bool) : Bool :=
  decide (queueLen < 100) || workerWaiting

/-- Counterexample to claim C3 as stated: with the rate limiter's stop signal
fired and no buffered token, `Wait` is not ready — the caller stays blocked
forever (the refill goroutine has exited, so no send will ever wake it); with
the job queue full, no worker free and cancellation fired, `Submit` is not
ready either; and a stage's input dequeue with no value available, the input
not closed and cancellation fired is not ready either. -/
theorem C3_counterexample :
    RateLimiter.waitReady 0 true = false ∧
    WorkerPool.submitReady 100 false true = false ∧
    rangeRecvReady false false true = false := by
  decide

/-- Claim C3 (amended): only the emit `select` statements of the pipeline
stages are two-way waits — cancellation alone makes them ready — while the
input-dequeue `range` receives of `SafePipeline`, `worker`, `merge` and
`Tee`, the rate limiter's `Wait` and the worker pool's `Submit` are one-way
waits: their readiness is independent of the cancellation signal, and each
can be unready (the caller blocked) with that signal fired. -/
theorem C3_wait_shapes :
    (∀ receiverReady, Generator.emitReady true receiverReady = true) ∧
    (∀ v closed c c', rangeRecvReady v closed c = rangeRecvReady v closed c') ∧
    rangeRecvReady false false true = false ∧
    (∀ tokens s s', RateLimiter.waitReady tokens s = RateLimiter.waitReady tokens s') ∧
    RateLimiter.waitReady 0 true = false ∧
    (∀ queueLen w c c',
      WorkerPool.submitReady queueLen w c = WorkerPool.submitReady queueLen w c') ∧
    WorkerPool.submitReady 100 false true = false := by
  refine ⟨fun r => rfl, fun _ _ _ _ => rfl, rfl, fun _ _ _ => rfl, rfl,
    fun _ _ _ _ => rfl, rfl⟩

/-!
`Tee` (channels.go): one goroutine ranges over `input`; for each value it
first offers it to `ch1` in a `select` against `ctx.Done()`, then to `ch2`
likewise, and `defer close(ch1); defer close(ch2)` run exactly once each when
the goroutine exits by either path.
-/

structure TeeResult where
  out1 : List Int
  out2 : List Int
  closes1 : Nat
  closes2 : Nat
deriving DecidableEq, Repr

/-- The `Tee` loop: at oracle step `t` the first offer of `v` either sees
cancellation (return, `v` reaching neither output) or lands in `ch1`; at step
`t+1` the second offer either sees cancellation (return, `v` in `ch1` only)
or lands in `ch2`. -/
def teeLoop (cancelled : Nat → Bool) : List Int → Nat → List Int × List Int
  | [], _ => ([], [])
  | v :: rest, t =>
    if cancelled t then ([], [])
    else if cancelled (t + 1) then ([v], [])
    else
      let p := teeLoop cancelled rest (t + 2)
      (v :: p.1, v :: p.2)

/-- `Tee`: the two output sequences, and the number of times each output
channel is closed — the two `defer close` statements of the single goroutine
each run exactly once, at goroutine exit. -/
def Tee (cancelled : Nat → Bool) (input : List Int) : TeeResult :=
  ⟨(teeLoop cancelled input 0).1, (teeLoop cancelled input 0).2, 1, 1⟩

theorem teeLoop_noFire (cancelled : Nat → Bool) (h : ∀ t, cancelled t = false) :
    ∀ (input : List Int) (t : Nat), teeLoop cancelled input t = (input, input) := by
  intro input
  induction input with
  | nil => intro t; rfl
  | cons v rest ih =>
    intro t
    simp [teeLoop, h t, h (t + 1), ih (t + 2)]

/-- Claim C4: with the token never firing, `Tee` produces two output sequences
each equal to the input (hence to each other), and each output channel is
closed exactly once, both together at goroutine exit. -/
theorem C4_tee (cancelled : Nat → Bool) (h : ∀ t, cancelled t = false)
    (input : List Int) :
    (Tee cancelled input).out1 = input ∧
    (Tee cancelled input).out2 = input ∧
    (Tee cancelled input).out1 = (Tee cancelled input).out2 ∧
    (Tee cancelled input).closes1 = 1 ∧
    (Tee cancelled input).closes2 = 1 := by
  have hl := teeLoop_noFire cancelled h input 0
  refine ⟨?_, ?_, ?_, rfl, rfl⟩ <;> simp [Tee, hl]

/-- Witness for C4 at the never-firing oracle and input `[4, 5, 6]`. -/
theorem C4_tee_witness :
    (Tee noCancel [4, 5, 6]).out1 = [4, 5, 6] ∧
    (Tee noCancel [4, 5, 6]).out2 = [4, 5, 6] ∧
    (Tee noCancel [4, 5, 6]).out1 = (Tee noCancel [4, 5, 6]).out2 ∧
    (Tee noCancel [4, 5, 6]).closes1 = 1 ∧
    (Tee noCancel [4, 5, 6]).closes2 = 1 :=
  C4_tee noCancel (fun _ => rfl) [4, 5, 6]

/-!
`OrDone` and `Bridge` (channels.go).  `OrDone` relays one channel, checking
cancellation both before receiving each value and before forwarding it.
`Bridge` ranges over an outer channel of channels; each inner channel is
wrapped in a fresh `OrDone` relay (its own goroutine, hence its own oracle)
and fully drained into the single output before the next inner channel is
received.  A cancellation observed inside the inner drain aborts the whole
bridge goroutine.
-/

/-- The `OrDone` relay loop: per element, one cancellation check at the
receiving `select` and one at the forwarding `select`. -/
def orDoneRun (cancelled : Nat → Bool) : List Int → Nat → List Int
  | [], _ => []
  | v :: vs, t =>
    if cancelled t then []
    else if cancelled (t + 1) then []
    else v :: orDoneRun cancelled vs (t + 2)

/-- `OrDone` wraps a channel with context cancellation. -/
def OrDone (cancelled : Nat → Bool) (ch : List Int) : List Int :=
  orDoneRun cancelled ch 0

/-- The bridge goroutine's inner forwarding loop over one relayed channel:
returns the values emitted, the next oracle step, and whether cancellation
aborted the loop (and with it the whole bridge goroutine). -/
def bridgeEmit (cancelled : Nat → Bool) : List Int → Nat → List Int × Nat × Bool
  | [], t => ([], t, false)
  | v :: vs, t =>
    if cancelled t then ([], t, true)
    else
      let r := bridgeEmit cancelled vs (t + 1)
      (v :: r.1, r.2.1, r.2.2)

/-- The bridge goroutine's outer loop: check cancellation, receive the next
inner channel (index `i`), drain its fresh `OrDone` relay, and continue
unless the drain was aborted by cancellation. -/
def bridgeOuter (cancelled : Nat → Bool) (relay : Nat → Nat → Bool) :
    List (List Int) → Nat → Nat → List Int
  | [], _, _ => []
  | ch :: rest, t, i =>
    if cancelled t then []
    else
      let r := bridgeEmit cancelled (OrDone (relay i) ch) (t + 1)
      if r.2.2 then r.1 else r.1 ++ bridgeOuter cancelled relay rest r.2.1 (i + 1)

/-- `Bridge` flattens a channel of channels, the `i`-th inner channel relayed
through `OrDone` with oracle `relay i`. -/
def Bridge (cancelled : Nat → Bool) (relay : Nat → Nat → Bool)
    (chanStream : List (List Int)) : List Int :=
  bridgeOuter cancelled relay chanStream 0 0

theorem orDoneRun_noFire (cancelled : Nat → Bool) (h : ∀ t, cancelled t = false) :
    ∀ (ch : List Int) (t : Nat), orDoneRun cancelled ch t = ch := by
  intro ch
  induction ch with
  | nil => intro t; rfl
  | cons v vs ih =>
    intro t
    simp [orDoneRun, h t, h (t + 1), ih (t + 2)]

theorem bridgeEmit_noFire (cancelled : Nat → Bool) (h : ∀ t, cancelled t = false) :
    ∀ (l : List Int) (t : Nat), bridgeEmit cancelled l t = (l, t + l.length, false) := by
  intro l
  induction l with
  | nil => intro t; simp [bridgeEmit]
  | cons v vs ih =>
    intro t
    simp [bridgeEmit, h t, ih (t + 1)]
    omega

/-- Claim C5: with neither the bridge's token nor any relay oracle ever
firing, `Bridge` outputs exactly the concatenation of the inner sequences in
outer order — depth-first flattening. -/
theorem C5_bridge (cancelled : Nat → Bool) (relay : Nat → Nat → Bool)
    (h : ∀ t, cancelled t = false) (hr : ∀ i t, relay i t = false)
    (chanStream : List (List Int)) :
    Bridge cancelled relay chanStream = chanStream.flatten := by
  suffices hgen : ∀ (l : List (List Int)) (t i : Nat),
      bridgeOuter cancelled relay l t i = l.flatten by
    exact hgen chanStream 0 0
  intro l
  induction l with
  | nil => intro t i; rfl
  | cons ch rest ih =>
    intro t i
    simp only [bridgeOuter, h t, Bool.false_eq_true, if_false, OrDone,
      orDoneRun_noFire (relay i) (hr i) ch 0,
      bridgeEmit_noFire cancelled h ch (t + 1)]
    simp [ih, List.flatten]

/-- Witness for C5 at never-firing oracles and inner sources
`[[1,2],[3],[4,5]]`. -/
theorem C5_bridge_witness :
    Bridge noCancel (fun _ _ => false) [[1, 2], [3], [4, 5]] =
      ([[1, 2], [3], [4, 5]] : List (List Int)).flatten :=
  C5_bridge noCancel (fun _ _ => false) (fun _ => rfl) (fun _ _ => rfl)
    [[1, 2], [3], [4, 5]]

/-!
`Broadcaster` (channels.go).  `NewBroadcaster` creates the inbox
`make(chan T, 10)` and a dispatcher goroutine; `Subscribe` creates an outbox
`make(chan T, 10)`; `Send` is `select { case b.input <- val: ; case <-b.ctx.Done(): }`;
`broadcast` does, per subscriber, `select { case ch <- val: default: }`.
-/

/-- Outcome analysis of one `Send` call as a function of the broadcaster's
cancellation state and the current inbox occupancy.  By `select` semantics the
enqueue case is available iff the inbox (capacity 10) has room, the drop case
iff the context is cancelled, and the caller blocks iff neither is available. -/
structure SendBehavior where
  canEnqueue : Bool
  canDrop : Bool
  blocks : Bool
deriving DecidableEq, Repr

/-- `Broadcaster.Send`, modelled at the `select` statement. -/
def Broadcaster.send (cancelled : Bool) (inboxLen : Nat) : SendBehavior :=
  { canEnqueue := decide (inboxLen < 10)
    canDrop := cancelled
    blocks := !(decide (inboxLen < 10) || cancelled) }

/-- Counterexample to claim C6 as stated: while Running (not cancelled) with
the inbox full (10 buffered values), neither `select` case is available and
`Send` blocks the caller. -/
theorem C6_counterexample : (Broadcaster.send false 10).blocks = true := by
  decide

/-- Claim C6 (amended): `Send` never blocks once the broadcaster is cancelled
(not Running) — the value is silently dropped, no error surfaced — and while
Running it enqueues to the inbox without blocking whenever the inbox has room;
but while Running with the inbox (capacity 10) full, `Send` blocks the caller
until space or cancellation. -/
theorem C6_send_behavior (cancelled : Bool) (inboxLen : Nat) :
    (cancelled = true →
      (Broadcaster.send cancelled inboxLen).canDrop = true ∧
      (Broadcaster.send cancelled inboxLen).blocks = false) ∧
    (cancelled = false → inboxLen < 10 →
      (Broadcaster.send cancelled inboxLen).canEnqueue = true ∧
      (Broadcaster.send cancelled inboxLen).blocks = false) ∧
    (cancelled = false → 10 ≤ inboxLen →
      (Broadcaster.send cancelled inboxLen).blocks = true) := by
  refine ⟨fun hc => ?_, fun hc hlen => ?_, fun hc hlen => ?_⟩ <;>
    subst hc <;> simp [Broadcaster.send] <;> omega

/-- Witness for C6 at concrete states: cancelled with inbox 10, running with
inbox 3, running with inbox 10. -/
theorem C6_send_behavior_witness :
    ((Broadcaster.send true 10).canDrop = true ∧
     (Broadcaster.send true 10).blocks = false) ∧
    ((Broadcaster.send false 3).canEnqueue = true ∧
     (Broadcaster.send false 3).blocks = false) ∧
    (Broadcaster.send false 10).blocks = true :=
  ⟨(C6_send_behavior true 10).1 rfl,
   (C6_send_behavior false 3).2.1 rfl (by decide),
   (C6_send_behavior false 10).2.2 rfl (by decide)⟩

/-- From `Broadcaster.broadcast`: the non-blocking attempt
`select { case ch <- val: default: }` against one subscriber outbox of
capacity 10 — append if there is room, otherwise drop for that subscriber. -/
def trySend (outbox : List Int) (val : Int) : List Int :=
  if outbox.length < 10 then outbox ++ [val] else outbox

/-- `Broadcaster.broadcast`: one dispatch of `val` attempts the non-blocking
enqueue against every subscriber outbox. -/
def Broadcaster.broadcast (subs : List (List Int)) (val : Int) : List (List Int) :=
  subs.map (fun ch => trySend ch val)

theorem broadcast_getD (subs : List (List Int)) (val : Int) :
    ∀ i, i < subs.length →
      (Broadcaster.broadcast subs val).getD i [] = trySend (subs.getD i []) val := by
  induction subs with
  | nil => intro i hi; simp at hi
  | cons s ss ih =>
    intro i hi
    cases i with
    | zero => rfl
    | succ j =>
      simpa [Broadcaster.broadcast, List.getD] using ih j (by simpa using hi)

/-- Claim C7: one dispatch attempts every subscriber; an outbox with room
receives the value appended, a full outbox (10 buffered) drops it for that
subscriber only, and what subscriber `i` receives depends only on subscriber
`i`'s own outbox — other subscribers' states do not affect it; the dispatcher
also always progresses past the attempt (the result is defined for every
state, never a blocked dispatcher). -/
theorem C7_broadcast_frame (subs : List (List Int)) (val : Int) (i : Nat) :
    (Broadcaster.broadcast subs val).length = subs.length ∧
    (i < subs.length →
      ((subs.getD i []).length < 10 →
        (Broadcaster.broadcast subs val).getD i [] = subs.getD i [] ++ [val]) ∧
      (10 ≤ (subs.getD i []).length →
        (Broadcaster.broadcast subs val).getD i [] = subs.getD i [])) ∧
    (∀ other : List (List Int), i < subs.length → i < other.length →
      subs.getD i [] = other.getD i [] →
      (Broadcaster.broadcast subs val).getD i [] =
        (Broadcaster.broadcast other val).getD i []) := by
  refine ⟨by simp [Broadcaster.broadcast], fun hi => ⟨fun hroom => ?_, fun hfull => ?_⟩,
    fun other hi hio heq => ?_⟩
  · rw [broadcast_getD subs val i hi, trySend, if_pos hroom]
  · rw [broadcast_getD subs val i hi, trySend, if_neg (by omega)]
  · rw [broadcast_getD subs val i hi, broadcast_getD other val i hio, heq]

/-- Witness for C7: subscribers `[[0,…,9], [5]]` — the first outbox full, the
second with room.  Dispatching 7 drops it for the first subscriber only,
appends it for the second, and the second's delivery is unchanged when the
first subscriber's state differs (`[[9,9],[5]]`). -/
theorem C7_broadcast_frame_witness :
    (Broadcaster.broadcast [[0, 1, 2, 3, 4, 5, 6, 7, 8, 9], [5]] 7).length =
      ([[0, 1, 2, 3, 4, 5, 6, 7, 8, 9], [5]] : List (List Int)).length ∧
    (Broadcaster.broadcast [[0, 1, 2, 3, 4, 5, 6, 7, 8, 9], [5]] 7).getD 0 [] =
      [0, 1, 2, 3, 4, 5, 6, 7, 8, 9] ∧
    (Broadcaster.broadcast [[0, 1, 2, 3, 4, 5, 6, 7, 8, 9], [5]] 7).getD 1 [] = [5, 7] ∧
    (Broadcaster.broadcast [[0, 1, 2, 3, 4, 5, 6, 7, 8, 9], [5]] 7).getD 1 [] =
      (Broadcaster.broadcast [[9, 9], [5]] 7).getD 1 [] :=
  ⟨(C7_broadcast_frame [[0, 1, 2, 3, 4, 5, 6, 7, 8, 9], [5]] 7 0).1,
   ((C7_broadcast_frame [[0, 1, 2, 3, 4, 5, 6, 7, 8, 9], [5]] 7 0).2.1 (by decide)).2
     (by decide),
   ((C7_broadcast_frame [[0, 1, 2, 3, 4, 5, 6, 7, 8, 9], [5]] 7 1).2.1 (by decide)).1
     (by decide),
   (C7_broadcast_frame [[0, 1, 2, 3, 4, 5, 6, 7, 8, 9], [5]] 7 1).2.2 [[9, 9], [5]]
     (by decide) (by decide) (by decide)⟩

/-!
`WorkerPool` (concurrency file).  `jobs` is a buffered channel; each of the
`W` workers runs `for job := range p.jobs { job() }` and `defer p.wg.Done()`;
`Submit` sends on `jobs`; `Close` does `close(p.jobs); p.wg.Wait()`, i.e. it
returns exactly when the running-worker count reaches zero.  Jobs are
identified by `Nat` ids and "running a job" is recorded by appending its id
to an execution log.  We model the pool as a small-step machine: submitting
appends to the queue while the channel is open, a worker takes the head of
the queue and runs it, and a worker exits only once the channel is closed and
the queue is drained (that is when `range` terminates).
-/

structure PoolState where
  queue : List Nat
  closedFlag : Bool
  running : Nat
  executed : List Nat
deriving DecidableEq, Repr

/-- One step of the worker pool. -/
inductive PoolStep : PoolState → PoolState → Prop
  | submit (s : PoolState) (j : Nat) (h : s.closedFlag = false) :
      PoolStep s ⟨s.queue ++ [j], s.closedFlag, s.running, s.executed⟩
  | take (s : PoolState) (j : Nat) (rest : List Nat)
      (hq : s.queue = j :: rest) (hr : 0 < s.running) :
      PoolStep s ⟨rest, s.closedFlag, s.running, s.executed ++ [j]⟩
  | closeChan (s : PoolState) :
      PoolStep s ⟨s.queue, true, s.running, s.executed⟩
  | exitWorker (s : PoolState) (hc : s.closedFlag = true) (hq : s.queue = [])
      (hr : 0 < s.running) :
      PoolStep s ⟨s.queue, s.closedFlag, s.running - 1, s.executed⟩

/-- Reflexive-transitive closure of `PoolStep`. -/
inductive PoolReach (init : PoolState) : PoolState → Prop
  | refl : PoolReach init init
  | step {s t : PoolState} : PoolReach init s → PoolStep s t → PoolReach init t

/-- The pool state at the moment `Close` has closed the jobs channel, after
`jobs` were submitted and before any of them was taken. -/
def poolAfterClose (W : Nat) (jobs : List Nat) : PoolState :=
  ⟨jobs, true, W, []⟩

theorem poolInvariant (W : Nat) (jobs : List Nat) (hW : 1 ≤ W) (s : PoolState)
    (hreach : PoolReach (poolAfterClose W jobs) s) :
    s.closedFlag = true ∧ s.executed ++ s.queue = jobs ∧
      (s.running = 0 → s.queue = []) := by
  induction hreach with
  | refl =>
    refine ⟨rfl, rfl, fun h0 => ?_⟩
    exact absurd h0 (by simp [poolAfterClose]; omega)
  | step hr hstep ih =>
    obtain ⟨ihc, ihlog, ihrun⟩ := ih
    cases hstep with
    | submit j h => rw [ihc] at h; cases h
    | take j rest hq hrpos =>
      refine ⟨ihc, by rw [← ihlog, hq]; simp, fun h0 => ?_⟩
      simp only at h0
      omega
    | closeChan => exact ⟨rfl, ihlog, ihrun⟩
    | exitWorker hc hq hrpos => exact ⟨ihc, ihlog, fun _ => hq⟩

/-- Claim C8: after `Close` has closed the jobs channel with the `K` submitted
jobs queued, every reachable pool state still refuses submissions (channel
closed), its execution log followed by the remaining queue is exactly the
submitted job list; and in any state where `Close` has returned
(`running = 0`, i.e. `wg.Wait` passed), the queue is drained, every worker
has exited, and the log equals the submitted list — each job ran exactly
once, in submission order. -/
theorem C8_pool_drains (W : Nat) (jobs : List Nat) (s : PoolState) (hW : 1 ≤ W)
    (hreach : PoolReach (poolAfterClose W jobs) s) :
    s.closedFlag = true ∧
    s.executed ++ s.queue = jobs ∧
    (s.running = 0 → s.queue = [] ∧ s.executed = jobs) := by
  obtain ⟨hc, hlog, hrun⟩ := poolInvariant W jobs hW s hreach
  refine ⟨hc, hlog, fun h0 => ⟨hrun h0, ?_⟩⟩
  rw [← hlog, hrun h0, List.append_nil]

/-- Witness for C8: one worker, jobs `[7, 8]`; the run take-take-exit reaches
the returned-from-Close state with log `[7, 8]`. -/
theorem C8_pool_drains_witness :
    (⟨[], true, 0, [7, 8]⟩ : PoolState).closedFlag = true ∧
    (⟨[], true, 0, [7, 8]⟩ : PoolState).executed ++
      (⟨[], true, 0, [7, 8]⟩ : PoolState).queue = [7, 8] ∧
    ((⟨[], true, 0, [7, 8]⟩ : PoolState).running = 0 →
      (⟨[], true, 0, [7, 8]⟩ : PoolState).queue = [] ∧
      (⟨[], true, 0, [7, 8]⟩ : PoolState).executed = [7, 8]) :=
  C8_pool_drains 1 [7, 8] ⟨[], true, 0, [7, 8]⟩ (by decide)
    (PoolReach.step
      (PoolReach.step
        (PoolReach.step PoolReach.refl
          (PoolStep.take (poolAfterClose 1 [7, 8]) 7 [8] rfl (by decide)))
        (PoolStep.take ⟨[8], true, 1, [7]⟩ 8 [] rfl (by decide)))
      (PoolStep.exitWorker ⟨[], true, 1, [7, 8]⟩ rfl rfl (by decide)))

/-!
Claim C10 concerns Go channel semantics at `Submit` after `Close`: `Close`
runs `close(p.jobs)` and `Submit` runs the send `p.jobs <- job`; in Go a send
on a closed channel panics.  We embed the semantics of one send on a buffered
channel.
-/

structure GoChan where
  buf : List Nat
  cap : Nat
  closedFlag : Bool
deriving DecidableEq, Repr

/-- Result of one send statement on a buffered channel with no receiver
rendezvous: on a closed channel it panics; otherwise it enqueues if the
buffer has room and blocks if the buffer is full. -/
inductive SendResult where
  | ok (c : GoChan)
  | blocked
  | panicked
deriving DecidableEq, Repr

/-- Go semantics of `ch <- v` on a buffered channel. -/
def chanSend (c : GoChan) (v : Nat) : SendResult :=
  if c.closedFlag then .panicked
  else if c.buf.length < c.cap then .ok ⟨c.buf ++ [v], c.cap, c.closedFlag⟩
  else .blocked

/-- `WorkerPool.Submit`: the single statement `p.jobs <- job`. -/
def WorkerPool.submit (jobs : GoChan) (j : Nat) : SendResult :=
  chanSend jobs j

/-- `close(p.jobs)` performed by `WorkerPool.Close`. -/
def WorkerPool.closeJobs (jobs : GoChan) : GoChan :=
  ⟨jobs.buf, jobs.cap, true⟩

/-- Claim C10: for every pool queue state and every job, `Submit` after
`Close` panics — it neither blocks nor enqueues the job, so misuse after
`Close` is reliably fatal to the caller rather than silent. -/
theorem C10_submit_after_close (jobs : GoChan) (j : Nat) :
    WorkerPool.submit (WorkerPool.closeJobs jobs) j = SendResult.panicked ∧
    WorkerPool.submit (WorkerPool.closeJobs jobs) j ≠ SendResult.blocked ∧
    (∀ c : GoChan, WorkerPool.submit (WorkerPool.closeJobs jobs) j ≠ SendResult.ok c) := by
  refine ⟨rfl, by simp [WorkerPool.submit, chanSend, WorkerPool.closeJobs], ?_⟩
  intro c
  simp [WorkerPool.submit, chanSend, WorkerPool.closeJobs]

/-!
`RateLimiter` (concurrency file).  The token pool is the buffered channel
`make(chan struct{}, capacity)`, filled with `capacity` tokens by the
constructor; a ticker goroutine does a non-blocking send per tick (a full
bucket makes the tick a no-op); `Allow` is a non-blocking receive returning
whether a token was taken; `Wait` is a blocking receive.  The channel is
modelled by its occupancy: a `Nat` bounded by the capacity.
-/

structure RL where
  tokens : Nat
  capacity : Nat
deriving DecidableEq, Repr

/-- `NewRateLimiter capacity`: the bucket starts full. -/
def NewRateLimiter (capacity : Nat) : RL :=
  ⟨capacity, capacity⟩

/-- `RateLimiter.Allow`: `select { case <-rl.tokens: return true; default: return false }`. -/
def RL.allow (s : RL) : Bool × RL :=
  if 0 < s.tokens then (true, ⟨s.tokens - 1, s.capacity⟩) else (false, s)

/-- One ticker firing: `select { case rl.tokens <- struct{}{}: ; default: }` —
adds a token unless the bucket is full. -/
def RL.refillTick (s : RL) : RL :=
  if s.tokens < s.capacity then ⟨s.tokens + 1, s.capacity⟩ else s

/-- `RateLimiter.Wait`: `<-rl.tokens` — takes a token when one is available,
otherwise leaves the caller suspended (no state change). -/
def RL.waitTake (s : RL) : RL :=
  if 0 < s.tokens then ⟨s.tokens - 1, s.capacity⟩ else s

/-- The booleans returned by `n` consecutive `Allow` calls. -/
def RL.allowRun : Nat → RL → List Bool
  | 0, _ => []
  | n + 1, s => (s.allow).1 :: RL.allowRun n (s.allow).2

/-- Any interleaving of the limiter's operations on the token channel. -/
inductive RLOp where
  | allowOp
  | tickOp
  | waitOp
deriving DecidableEq, Repr

def RLOp.apply : RLOp → RL → RL
  | .allowOp, s => (s.allow).2
  | .tickOp, s => s.refillTick
  | .waitOp, s => s.waitTake

def RL.runOps (ops : List RLOp) (s : RL) : RL :=
  ops.foldl (fun s op => op.apply s) s

theorem allowRun_exhausts (capacity : Nat) :
    ∀ (n : Nat), RL.allowRun (n + 1) ⟨n, capacity⟩ =
      List.replicate n true ++ [false] := by
  intro n
  induction n with
  | zero => rfl
  | succ m ih =>
    have h1 : RL.allowRun (m + 1 + 1) ⟨m + 1, capacity⟩ =
        true :: RL.allowRun (m + 1) ⟨m, capacity⟩ := by
      simp [RL.allowRun, RL.allow]
    rw [h1, ih]
    rfl

theorem rl_step_bounded (s : RL) (op : RLOp) (h : s.tokens ≤ s.capacity) :
    (op.apply s).tokens ≤ (op.apply s).capacity ∧ (op.apply s).capacity = s.capacity := by
  cases op <;>
    simp only [RLOp.apply, RL.allow, RL.refillTick, RL.waitTake] <;>
    split <;> simp <;> omega

/-- Claim C9: a fresh limiter of capacity `C` answers exactly `C` consecutive
`Allow` calls `true` and the `(C+1)`-th `false`; a refill tick on the fresh
(full) limiter is a no-op; and under every interleaving of `Allow`, ticks and
`Wait` the token count stays in `[0, C]` (it is a `Nat`, so `0 ≤` holds by
type). -/
theorem C9_rate_limiter (C : Nat) :
    RL.allowRun (C + 1) (NewRateLimiter C) = List.replicate C true ++ [false] ∧
    RL.refillTick (NewRateLimiter C) = NewRateLimiter C ∧
    (∀ ops : List RLOp, (RL.runOps ops (NewRateLimiter C)).tokens ≤ C) := by
  refine ⟨allowRun_exhausts C C, by simp [RL.refillTick, NewRateLimiter], ?_⟩
  intro ops
  suffices hgen : ∀ (s : RL), s.tokens ≤ s.capacity →
      (RL.runOps ops s).tokens ≤ (RL.runOps ops s).capacity ∧
      (RL.runOps ops s).capacity = s.capacity by
    obtain ⟨ha, hb⟩ := hgen (NewRateLimiter C) (le_refl C)
    simp only [NewRateLimiter] at ha hb
    simp only [NewRateLimiter]
    omega
  induction ops with
  | nil => intro s hs; exact ⟨hs, rfl⟩
  | cons op rest ih =>
    intro s hs
    obtain ⟨h1, h2⟩ := rl_step_bounded s op hs
    obtain ⟨h3, h4⟩ := ih (op.apply s) h1
    have hstep : RL.runOps (op :: rest) s = RL.runOps rest (op.apply s) := rfl
    rw [hstep]
    exact ⟨h3, by rw [h4, h2]⟩

/-- Witness for C1 at `f = (· + 1)`, the never-firing oracle, input `[3, 7]`. -/
theorem C1_stage_maps_witness :
    (∀ t, noCancel t = false) ∧
    ((stageRun (fun x => x + 1) noCancel [3, 7] 0).length = ([3, 7] : List Int).length ∧
     (∀ i (hi : i < ([3, 7] : List Int).length),
       (stageRun (fun x => x + 1) noCancel [3, 7] 0).get
          ⟨i, by rw [stageRun_noFire _ noCancel (fun _ => rfl)]; simpa⟩ =
         (([3, 7] : List Int).get ⟨i, hi⟩) + 1) ∧
     SafePipeline noCancel (Generator noCancel [1, 2, 3, 4, 5]) = [2, 4, 6, 8, 10]) :=
  ⟨fun _ => rfl, C1_stage_maps (fun x => x + 1) noCancel (fun _ => rfl) [3, 7]⟩
